import Mathlib

/-!
Verification development for the ARC document-processing backend.

The Python sources are shallowly embedded:
* pure string/regex manipulation is translated to executable functions on
  `String` / `List Char`;
* Python `float` values (OCR confidences, classifier probabilities) are
  modelled as exact rationals `ℚ`;
* external collaborators (OpenCV image transforms, the Tesseract OCR backend,
  the pickled scikit-learn model, the filesystem) are parameters of the
  embedded functions — a `try/except` around such a call becomes an
  `Option`/`Except` parameter value;
* Python regular expressions are embedded by a small backtracking matcher
  (`PatM`): a pattern maps a character list to the list of possible consumed
  lengths in backtracking preference order, so greedy/lazy/alternation
  preference and leftmost search follow Python `re` semantics.
-/

namespace ARC

/-! ### Python-style character and string primitives -/

/-- Python's ASCII whitespace characters (the ones `str.strip`, `\s` and
`str.split` treat as whitespace). -/
def pyIsSpace (c : Char) : Bool :=
  c = ' ' || c = '\t' || c = '\n' || c = '\r' || c = '\x0b' || c = '\x0c'

/-- A regex word character (`\w`): ASCII alphanumeric or underscore. -/
def isWordChar (c : Char) : Bool := c.isAlphanum || c = '_'

/-- ASCII alphabetic character (`[a-zA-Z]`). -/
def isAsciiAlpha (c : Char) : Bool := c.isAlpha

/-- Python `str.lower()` (ASCII). -/
def pyLower (s : String) : String := String.mk (s.data.map Char.toLower)

/-- Python `str.upper()` (ASCII). -/
def pyUpper (s : String) : String := String.mk (s.data.map Char.toUpper)

def pyStripList (l : List Char) : List Char :=
  ((l.dropWhile pyIsSpace).reverse.dropWhile pyIsSpace).reverse

/-- Python `str.strip()` with no argument. -/
def pyStrip (s : String) : String := String.mk (pyStripList s.data)

/-- Python `str.strip(chars)`: remove any of `cs` from both ends. -/
def stripOn (cs : List Char) (l : List Char) : List Char :=
  ((l.dropWhile (fun c => cs.contains c)).reverse.dropWhile
      (fun c => cs.contains c)).reverse

def isInfixL (needle : List Char) : List Char → Bool
  | [] => needle.isPrefixOf []
  | c :: rest => needle.isPrefixOf (c :: rest) || isInfixL needle rest

/-- Python substring membership `needle in hay`. -/
def pyIn (needle hay : String) : Bool := isInfixL needle.data hay.data

/-- Python `str.replace(pat, repl)` (all occurrences, left to right, not
rescanning replacements). `fuel` bounds the scan; it is instantiated with the
length of the subject, enough because every step consumes at least one
character (all patterns used are nonempty). -/
def pyReplaceAux (pat repl : List Char) : Nat → List Char → List Char
  | _, [] => []
  | 0, l => l
  | fuel + 1, c :: rest =>
      if pat.isPrefixOf (c :: rest) then
        repl ++ pyReplaceAux pat repl fuel ((c :: rest).drop pat.length)
      else
        c :: pyReplaceAux pat repl fuel rest

def pyReplace (s pat repl : String) : String :=
  String.mk (pyReplaceAux pat.data repl.data s.data.length s.data)

/-- Collapse every run of whitespace to a single space
(`re.sub(r"\s+", " ", ...)`); the flag records whether the previous
character was whitespace. -/
def collapseWsAux : Bool → List Char → List Char
  | _, [] => []
  | prevSpace, c :: rest =>
      if pyIsSpace c then
        (if prevSpace then [] else [' ']) ++ collapseWsAux true rest
      else c :: collapseWsAux false rest

def collapseWs (l : List Char) : List Char := collapseWsAux false l

/-- Python `str.title()`: upper-case every alphabetic character that follows a
non-alphabetic one, lower-case the rest. -/
def pyTitleAux : Bool → List Char → List Char
  | _, [] => []
  | prevAlpha, c :: rest =>
      (if isAsciiAlpha c then
        (if prevAlpha then Char.toLower c else Char.toUpper c)
       else c) :: pyTitleAux (isAsciiAlpha c) rest

def pyTitle (s : String) : String := String.mk (pyTitleAux false s.data)

/-- Python `str.capitalize()`. -/
def pyCapitalize (s : String) : String :=
  match s.data with
  | [] => ""
  | c :: rest => String.mk (Char.toUpper c :: rest.map Char.toLower)

/-! ### A small backtracking regular-expression matcher

A pattern (`PatM`) maps a character list to the list of lengths it may
consume, ordered by the preference Python's backtracking engine uses
(greedy quantifiers longest-first, lazy shortest-first, alternation
left-to-right, sequencing lexicographic). -/

def PatM : Type := List Char → List Nat

def epsM : PatM := fun _ => [0]

def litM (lit : List Char) : PatM := fun l =>
  if lit.isPrefixOf l then [lit.length] else []

/-- Case-insensitive literal; `lit` is given in lower case. -/
def litCIM (lit : List Char) : PatM := fun l =>
  if (l.take lit.length).map Char.toLower = lit then [lit.length] else []

def seqM (p q : PatM) : PatM := fun l =>
  (p l).foldr (fun n acc => ((q (l.drop n)).map (fun m => n + m)) ++ acc) []

def altM (p q : PatM) : PatM := fun l => p l ++ q l

def charM (f : Char → Bool) : PatM := fun l =>
  match l with
  | c :: _ => if f c then [1] else []
  | [] => []

def optCharM (f : Char → Bool) : PatM := fun l =>
  match l with
  | c :: _ => if f c then [1, 0] else [0]
  | [] => [0]

/-- Greedy `(...)?` around a whole sub-pattern. -/
def optM (p : PatM) : PatM := fun l => p l ++ [0]

def leadCount (f : Char → Bool) (l : List Char) : Nat := (l.takeWhile f).length

/-- Greedy counted repetition `c{lo,hi}` of a character class. -/
def countM (f : Char → Bool) (lo hi : Nat) : PatM := fun l =>
  let k := min hi (leadCount f l)
  if k < lo then [] else (List.range (k + 1 - lo)).map (fun i => k - i)

/-- Exact repetition `c{n}` of a character class. -/
def exactM (f : Char → Bool) (n : Nat) : PatM := fun l =>
  if (l.take n).length = n ∧ (l.take n).all f then [n] else []

/-- Greedy `c*` of a character class. -/
def starM (f : Char → Bool) : PatM := fun l => countM f 0 l.length l

/-- Greedy `c+` of a character class. -/
def plusM (f : Char → Bool) : PatM := fun l => countM f 1 l.length l

/-- Greedy `c{lo,}` of a character class. -/
def atLeastM (f : Char → Bool) (lo : Nat) : PatM := fun l => countM f lo l.length l

def wsM : PatM := starM pyIsSpace

/-- Zero-width word boundary `\b`, valid at a point where the previously
consumed character is a word character (true for every use in this
development): it holds iff the next character is absent or a non-word
character. -/
def boundaryAfterWordM : PatM := fun l =>
  match l with
  | [] => [0]
  | c :: _ => if isWordChar c then [] else [0]

/-- Lazy `(.+?)` immediately followed by the lookahead `(?=...)` whose
success on the remainder is `term`; `.` does not match a newline. Consumed
lengths are produced shortest-first (lazy preference). -/
def lazyDotUntilM (term : List Char → Bool) : PatM := fun l =>
  (List.range l.length).filterMap (fun i =>
    if (l.take (i + 1)).all (fun c => c ≠ '\n') ∧ term (l.drop (i + 1)) then
      some (i + 1)
    else none)

/-- Try the pattern `pre (grp) post` at the start of `l` and return the
first successful capture of `grp` in backtracking preference order. -/
def firstMatch (pre grp post : PatM) (l : List Char) : Option (List Char) :=
  (pre l).foldr (fun n1 acc1 =>
    match (grp (l.drop n1)).foldr (fun n2 acc2 =>
        if (post ((l.drop n1).drop n2)).isEmpty then acc2
        else some ((l.drop n1).take n2)) none with
    | some g => some g
    | none => acc1) none

def optIsWord : Option Char → Bool
  | none => false
  | some c => isWordChar c

/-- `re.search` for a pattern `pre (grp) post`, scanning start positions left
to right; when `bound` is set, a `\b` word boundary is required at the
match start. Returns the captured group of the leftmost match. -/
def reSearchAux (bound : Bool) (pre grp post : PatM) :
    Option Char → List Char → Option (List Char)
  | _, [] => if bound then none else firstMatch pre grp post []
  | prev, c :: rest =>
      let ok := !bound || (optIsWord prev != isWordChar c)
      match (if ok then firstMatch pre grp post (c :: rest) else none) with
      | some g => some g
      | none => reSearchAux bound pre grp post (some c) rest

def reSearch (bound : Bool) (pre grp post : PatM) (s : String) : Option String :=
  (reSearchAux bound pre grp post none s.data).map String.mk

/-- Boolean `re.search` without a leading boundary. -/
def reTest (pat : PatM) (s : String) : Bool :=
  (reSearch false epsM pat epsM s).isSome

/-- Boolean `re.search` for a pattern starting with `\b`. -/
def reTestB (pat : PatM) (s : String) : Bool :=
  (reSearch true epsM pat epsM s).isSome

/-- First consumed length of `grp post` at the start of `l`, in preference
order (the whole-match length, since every `post` used is zero-width). -/
def firstLen (grp post : PatM) (l : List Char) : Option Nat :=
  (grp l).foldr (fun n acc =>
    if (post (l.drop n)).isEmpty then acc else some n) none

/-- `re.findall`: non-overlapping matches, scanning left to right and
resuming after each match. -/
def findAllAux (grp post : PatM) (bound : Bool) :
    Nat → Option Char → List Char → List (List Char)
  | 0, _, _ => []
  | _, _, [] => []
  | fuel + 1, prev, c :: rest =>
      let ok := !bound || (optIsWord prev != isWordChar c)
      match (if ok then firstLen grp post (c :: rest) else none) with
      | some (n + 1) =>
          (c :: rest).take (n + 1) ::
            findAllAux grp post bound fuel (((c :: rest).take (n + 1)).getLast?)
              ((c :: rest).drop (n + 1))
      | _ => findAllAux grp post bound fuel (some c) rest

def findAllRe (grp post : PatM) (bound : Bool) (s : String) : List String :=
  (findAllAux grp post bound s.data.length none s.data).map String.mk

/-- `re.sub(pat, repl, s)`: replace every non-overlapping match. -/
def subAllAux (pat : PatM) (repl : List Char) : Nat → List Char → List Char
  | 0, l => l
  | _, [] => []
  | fuel + 1, c :: rest =>
      match firstLen pat epsM (c :: rest) with
      | some (n + 1) => repl ++ subAllAux pat repl fuel ((c :: rest).drop (n + 1))
      | _ => c :: subAllAux pat repl fuel rest

def subAllRe (pat : PatM) (repl : String) (s : String) : String :=
  String.mk (subAllAux pat repl.data s.data.length s.data)

/-! ### `ml_classifier.py` — `DocumentClassifier` -/

/-- The fixed category labels (`DocumentClassifier.CATEGORIES`). -/
def CATEGORIES : List String :=
  ["Exam Form", "Acknowledgement Form", "Clearance", "Receipt", "Grade Sheet",
   "Enrollment Form", "ID Application", "Certificate Request", "Leave Form",
   "Syllabus Review Form", "Other"]

/-- Pattern `syllabus\W{0,10}review|review\W{0,10}syllabus`. -/
def fuzzyTitlePat : PatM :=
  altM
    (seqM (litM "syllabus".data)
      (seqM (countM (fun c => !isWordChar c) 0 10) (litM "review".data)))
    (seqM (litM "review".data)
      (seqM (countM (fun c => !isWordChar c) 0 10) (litM "syllabus".data)))

/-- Separator `\s*-?\s*` used inside the document-code patterns. -/
def sepPat : PatM := seqM wsM (seqM (optCharM (fun c => c = '-')) wsM)

/-- Pattern `(?:fm)?\s*-?\s*ustp\s*-?\s*acad\s*-?\s*12\b` (the leading `\b`
is handled by the bounded search). -/
def ustpPat : PatM :=
  seqM (optM (litM "fm".data))
    (seqM sepPat
      (seqM (litM "ustp".data)
        (seqM sepPat
          (seqM (litM "acad".data)
            (seqM sepPat (seqM (litM "12".data) boundaryAfterWordM))))))

/-- Pattern `\$?\d+\.?\d*`. -/
def amountPat : PatM :=
  seqM (optCharM (fun c => c = '$'))
    (seqM (plusM Char.isDigit)
      (seqM (optCharM (fun c => c = '.')) (starM Char.isDigit)))

/-- Date pattern: one or two digits, a slash-or-dash separator, one or two
digits, a separator, then two to four digits. -/
def datePat : PatM :=
  seqM (countM Char.isDigit 1 2)
    (seqM (charM (fun c => c = '/' || c = '-'))
      (seqM (countM Char.isDigit 1 2)
        (seqM (charM (fun c => c = '/' || c = '-')) (countM Char.isDigit 2 4))))

/-- `DocumentClassifier.extract_features`, embedded as the association list
the Python `dict` literal builds (same keys, same order, same values). -/
def extract_features (text : String) : List (String × Bool) :=
  let text_lower := pyLower text
  [("has_exam", ["exam", "examination", "test", "quiz"].any
      (fun w => pyIn w text_lower)),
   ("has_acknowledgement", ["acknowledge", "acknowledgement", "received"].any
      (fun w => pyIn w text_lower)),
   ("has_clearance", ["clearance", "cleared", "no obligations"].any
      (fun w => pyIn w text_lower)),
   ("has_receipt", ["receipt", "payment", "amount", "paid"].any
      (fun w => pyIn w text_lower)),
   ("has_grade", ["grade", "marks", "score", "gpa"].any
      (fun w => pyIn w text_lower)),
   ("has_enrollment", ["enroll", "enrollment", "registration"].any
      (fun w => pyIn w text_lower)),
   ("has_id", ["id card", "identification", "student id"].any
      (fun w => pyIn w text_lower)),
   ("has_certificate", ["certificate", "certification", "certify"].any
      (fun w => pyIn w text_lower)),
   ("has_leave", ["leave", "absence", "vacation"].any
      (fun w => pyIn w text_lower)),
   ("has_syllabus_title", pyIn "syllabus review form" text_lower),
   ("has_syllabus_indicators_table",
      pyIn "indicators" text_lower && pyIn "remarks" text_lower &&
        (pyIn "yes" text_lower && pyIn "no" text_lower)),
   ("has_syllabus_document_code",
      pyIn "fm-ustp-acad-12" text_lower || pyIn "fm ustp acad 12" text_lower),
   ("has_syllabus_title_fuzzy", reTest fuzzyTitlePat text_lower),
   ("has_ustp_acad_12", reTestB ustpPat text_lower),
   ("has_directions_yes", pyIn "directions" text_lower && pyIn "yes" text_lower),
   ("has_university_header",
      pyIn "university of science and technology of southern philippines"
        text_lower),
   ("has_course_code", pyIn "course code" text_lower),
   ("has_faculty", pyIn "faculty" text_lower),
   ("has_amount", reTest amountPat text),
   ("has_date", reTest datePat text),
   ("has_signature", pyIn "signature" text_lower || pyIn "signed" text_lower)]

/-- Python `features.get(k)` with its falsy default: a key that is absent
from the feature dict yields `False` in a boolean context. Indexing
`features[k]` on a defined key agrees with this. -/
def featGet (text : String) (k : String) : Bool :=
  ((extract_features text).lookup k).getD false

/-- The `syllabus_signals` accumulator of `rule_based_classification`
(lines 187–209), including the two `features.get` lookups on keys the
feature extractor never defines. -/
def syllabus_signals (text : String) : Nat :=
  (if featGet text "has_syllabus_title" then 4 else 0) +
  (if featGet text "has_syllabus_title_fuzzy" then 2 else 0) +
  (if featGet text "has_syllabus_document_code" then 3 else 0) +
  (if featGet text "has_ustp_acad_12" then 3 else 0) +
  (if featGet text "has_syllabus_indicators_table" then 2 else 0) +
  (if featGet text "has_reviewed_by" then 1 else 0) +
  (if featGet text "has_plan_of_action" then 1 else 0) +
  (if featGet text "has_directions_yes" then 1 else 0) +
  (if featGet text "has_university_header" then 1 else 0) +
  (if featGet text "has_course_code" then 1 else 0) +
  (if featGet text "has_faculty" then 1 else 0)

/-- The Grade Sheet score before the syllabus down-weight. -/
def grade_sheet_raw (text : String) : Nat :=
  (if featGet text "has_grade" then 3 else 0) +
  (if pyIn "transcript" (pyLower text) || pyIn "report card" (pyLower text)
   then 2 else 0)

/-- The Grade Sheet score after the syllabus down-weight
(`scores['Grade Sheet'] = max(0, scores['Grade Sheet'] - 3)`, applied when
`syllabus_signals > 0` and the score is positive; `-` is truncated
subtraction on `ℕ`, which is exactly the `max 0` floor). -/
def grade_sheet_score (text : String) : Nat :=
  if 0 < syllabus_signals text then
    (if 0 < grade_sheet_raw text then grade_sheet_raw text - 3
     else grade_sheet_raw text)
  else grade_sheet_raw text

/-- The `scores` dict of `rule_based_classification` after all rule updates,
as an association list in insertion (= `CATEGORIES`) order. -/
def rbScores (text : String) : List (String × Nat) :=
  let tl := pyLower text
  [("Exam Form",
      (if featGet text "has_exam" then 3 else 0) +
      (if pyIn "examination" tl && pyIn "form" tl then 2 else 0)),
   ("Acknowledgement Form",
      (if featGet text "has_acknowledgement" then 3 else 0) +
      (if featGet text "has_signature" && pyIn "acknowledge" tl then 2 else 0)),
   ("Clearance",
      (if featGet text "has_clearance" then 4 else 0) +
      (if pyIn "cleared" tl || pyIn "no pending" tl then 2 else 0)),
   ("Receipt",
      (if featGet text "has_receipt" then 3 else 0) +
      (if featGet text "has_amount" && (pyIn "paid" tl || pyIn "payment" tl)
       then 3 else 0)),
   ("Grade Sheet", grade_sheet_score text),
   ("Enrollment Form",
      (if featGet text "has_enrollment" then 3 else 0) +
      (if pyIn "enroll" tl && pyIn "subject" tl then 2 else 0)),
   ("ID Application",
      (if featGet text "has_id" then 4 else 0) +
      (if pyIn "student id" tl || pyIn "id application" tl then 2 else 0)),
   ("Certificate Request",
      (if featGet text "has_certificate" then 3 else 0) +
      (if pyIn "request" tl && pyIn "certificate" tl then 2 else 0)),
   ("Leave Form",
      (if featGet text "has_leave" then 3 else 0) +
      (if pyIn "leave application" tl || pyIn "absence" tl then 2 else 0)),
   ("Syllabus Review Form",
      if 0 < syllabus_signals text then syllabus_signals text else 0),
   ("Other", 0)]

/-- Python `max(scores.values())` (the scores list is never empty and all
values are nonnegative, so folding from `0` agrees). -/
def pyMaxVals (l : List (String × Nat)) : Nat :=
  l.foldl (fun a p => max a p.2) 0

/-- Python `max(scores, key=scores.get)` together with its value: iterates in
insertion order and keeps the first strictly greatest entry. -/
def pyMaxPair (l : List (String × Nat)) : String × Nat :=
  match l with
  | [] => ("", 0)
  | h :: t => t.foldl (fun b p => if b.2 < p.2 then p else b) h

/-- `DocumentClassifier.rule_based_classification` (lines 121–226): the final
winner selection over the accumulated scores. -/
def rule_based_classification (text : String) : String × ℚ :=
  if pyMaxVals (rbScores text) = 0 then ("Other", (1 : ℚ) / 2)
  else ((pyMaxPair (rbScores text)).1, min ((pyMaxVals (rbScores text) : ℚ) / 10) 1)

/-- Stop words of `DocumentClassifier.extract_keywords`. -/
def kw_stop_words : List String :=
  ["this", "that", "with", "from", "have", "been", "will",
   "would", "could", "should", "about", "their", "there"]

/-- Frequency counting with a Python dict: first-occurrence insertion order. -/
def bumpCount : List (String × Nat) → String → List (String × Nat)
  | [], w => [(w, 1)]
  | (k, n) :: rest, w =>
      if k = w then (k, n + 1) :: rest else (k, n) :: bumpCount rest w

/-- Stable descending sort by count (Python `sorted(..., key=count,
reverse=True)`): each element is inserted after all earlier elements whose
count is not smaller. -/
def insertByCountDesc (x : String × Nat) : List (String × Nat) → List (String × Nat)
  | [] => [x]
  | y :: ys => if y.2 < x.2 then x :: y :: ys else y :: insertByCountDesc x ys

def sortByCountDesc (l : List (String × Nat)) : List (String × Nat) :=
  l.foldl (fun acc x => insertByCountDesc x acc) []

/-- `DocumentClassifier.extract_keywords`: words are the
`re.findall(r'\b[a-zA-Z]{4,}\b', text.lower())` matches. -/
def extract_keywords (text : String) (top_n : Nat) : List String :=
  let words := findAllRe (atLeastM isAsciiAlpha 4) boundaryAfterWordM true
    (pyLower text)
  let filtered := words.filter (fun w => !kw_stop_words.contains w)
  let freq := filtered.foldl bumpCount []
  ((sortByCountDesc freq).take top_n).map Prod.fst

/-- Python `round(x, 2)` modelled on exact rationals: round `100 x` to the
nearest integer, ties to even, then divide by 100. -/
def roundHalfEven (x : ℚ) : ℤ :=
  if x - ⌊x⌋ < 1 / 2 then ⌊x⌋
  else if (1 : ℚ) / 2 < x - ⌊x⌋ then ⌊x⌋ + 1
  else if ⌊x⌋ % 2 = 0 then ⌊x⌋ else ⌊x⌋ + 1

def pyRound2 (x : ℚ) : ℚ := (roundHalfEven (x * 100) : ℚ) / 100

/-- The external pre-trained model (`self.model`): prediction returns the
predicted label together with `max(predict_proba(...)[0])`; an exception
raised inside `predict`/`predict_proba` is the `Except.error` case. -/
structure MLModel where
  predict : String → Except Unit (String × ℚ)

/-- `DocumentClassifier` state relevant to `classify`: the optional loaded
model and the confidence threshold (default 0.7 via environment). -/
structure DocumentClassifier where
  model : Option MLModel
  confidence_threshold : ℚ

/-- The result dict of `DocumentClassifier.classify`. -/
structure ClassificationResult where
  document_type : String
  confidence : ℚ
  keywords : List String
  method : String
deriving DecidableEq

/-- The guard `not text or len(text.strip()) < 10` of `classify`
(line 238); `text` is `none` when the caller passes Python `None`. -/
def isInsufficient (text : Option String) : Bool :=
  (match text with
   | none => true
   | some s => s == "") || decide ((pyStrip (text.getD "")).length < 10)

/-- The strategy selection of `classify` (lines 246–270): the
(document_type, confidence, method) triple before rounding. -/
def classifyDispatch (c : DocumentClassifier) (t : String) :
    String × ℚ × String :=
  match c.model with
  | some mdl =>
      match mdl.predict t with
      | Except.ok (lbl, p) =>
          if p < c.confidence_threshold then
            ((rule_based_classification t).1,
             (rule_based_classification t).2, "rule_based_fallback")
          else (lbl, p, "ml_model")
      | Except.error _ =>
          ((rule_based_classification t).1,
           (rule_based_classification t).2, "rule_based_error_fallback")
  | none =>
      ((rule_based_classification t).1,
       (rule_based_classification t).2, "rule_based")

/-- `DocumentClassifier.classify` (lines 228–280). -/
def classify (c : DocumentClassifier) (text : Option String) :
    ClassificationResult :=
  if isInsufficient text then
    ⟨"Other", 0, [], "insufficient_text"⟩
  else
    ⟨(classifyDispatch c (text.getD "")).1,
     pyRound2 (classifyDispatch c (text.getD "")).2.1,
     extract_keywords (text.getD "") 5,
     (classifyDispatch c (text.getD "")).2.2⟩

/-! ### `ocr_engine.py` — `OCREngine`

The OpenCV/Tesseract calls are external; they become parameters:
`imread` is `cv2.imread` (`none` = unreadable file), `prep` abstracts the
orientation/equalization/upscale/crop steps and the construction of the
15-variant candidate list (lines 148–206), `run` is `_ocr_text_and_conf`,
`headerOCR`/`bodyOCR` abstract the header/body sub-region OCR blocks
(lines 224–242, each internally wrapped in `try/except`), and `convert` is
`pdf2image.convert_from_path` (`Except.error` = rasterization failure). -/

/-- The replacement test of the candidate loop (line 220):
`conf > best_conf or (conf == best_conf and len(text) > len(best_text))`. -/
abbrev improves (cand best : String × ℚ) : Prop :=
  best.2 < cand.2 ∨ (cand.2 = best.2 ∧ best.1.length < cand.1.length)

/-- One step of the running-best update (lines 220–222). -/
def stepBest (best cand : String × ℚ) : String × ℚ :=
  if improves cand best then cand else best

def bestFold (init : String × ℚ) (cs : List (String × ℚ)) : String × ℚ :=
  cs.foldl stepBest init

/-- The fixed OCR configuration strings (lines 207–214). -/
def ocr_configs : List String :=
  ["--oem 3 --psm 6 -c user_defined_dpi=300",
   "--oem 1 --psm 6 -c user_defined_dpi=300",
   "--oem 3 --psm 4 -c user_defined_dpi=300",
   "--oem 3 --psm 11 -c user_defined_dpi=300",
   "--oem 3 --psm 12 -c user_defined_dpi=300",
   "--oem 3 --psm 3 -c user_defined_dpi=300"]

/-- The nested candidate loop (lines 215–222): running best over the ordered
(variant, configuration) cross-product, starting from
`best_text = ""`, `best_conf = -1.0`. -/
def searchBest {Img : Type} (run : Img → String → String × ℚ)
    (cands : List Img) (cfgs : List String) : String × ℚ :=
  cands.foldl (fun acc v => cfgs.foldl (fun a cfg => stepBest a (run v cfg)) acc)
    ("", -1)

/-- The candidate results of the cross-product in loop order. -/
def candList {Img : Type} (run : Img → String → String × ℚ)
    (cfgs : List String) : List Img → List (String × ℚ)
  | [] => []
  | v :: vs => cfgs.map (run v) ++ candList run cfgs vs

/-- `OCREngine.extract_text_from_image` (lines 142–258). The surrounding
`try/except` returns `""` on any error; in particular an unreadable image
(`cv2.imread` returning `None`, line 146) returns `""`. -/
def extract_text_from_image {Img : Type} (imread : String → Option Img)
    (prep : Img → Img × List Img) (run : Img → String → String × ℚ)
    (headerOCR bodyOCR : Img → String) (maxChars : Nat) (path : String) :
    String :=
  match imread path with
  | none => ""
  | some base =>
      let p := prep base
      let best := searchBest run p.2 ocr_configs
      let header_text := pyStrip (headerOCR p.1)
      let body_text := pyStrip (bodyOCR p.1)
      let pieces := [header_text, best.1, body_text].filter (fun s => s ≠ "")
      let text := pyStrip (String.intercalate "\n\n" pieces)
      if maxChars < text.length then String.mk (text.data.take maxChars) else text

/-- `OCREngine.extract_text_from_pdf` (lines 260–314). `convert` is the page
rasterization; the enclosing `try/except` catches its failure and returns
`""` (lines 312–314). `pageText` abstracts the per-page temp-file round trip
through `extract_text_from_image`. -/
def extract_text_from_pdf {Img : Type} (convert : Except Unit (List Img))
    (pageText : Img → String) (maxPages maxChars : Nat) : String :=
  match convert with
  | Except.error _ => ""
  | Except.ok pages =>
      let toProcess := pages.take (max 1 maxPages)
      let full := pyStrip (String.intercalate "\n\n" (toProcess.map pageText))
      if maxChars < full.length then String.mk (full.data.take maxChars) else full

/-! ### `field_extractor.py` — `FieldExtractor` -/

/-- `FieldExtractor._norm`: unify en/em dashes to `-`, collapse whitespace
runs to single spaces, strip. -/
def normText (text : String) : String :=
  if text = "" then ""
  else
    pyStrip (String.mk (collapseWs (text.data.map (fun c =>
      if c = '—' then '-' else if c = '–' then '-' else c))))

/-- Document-code pattern `(f?m\s*-?\s*ustp\s*-?\s*acad\s*-?\s*12)`
(case-insensitive, searched on the lower-cased normalized text). -/
def docCodePat : PatM :=
  seqM (optCharM (fun c => Char.toLower c = 'f'))
    (seqM (litCIM "m".data)
      (seqM sepPat
        (seqM (litCIM "ustp".data)
          (seqM sepPat
            (seqM (litCIM "acad".data) (seqM sepPat (litCIM "12".data)))))))

/-- Canonicalization pattern `([A-Z]+)(USTP)(ACAD)(12)` of line 58. -/
def ustpAcadSubPat : PatM := seqM (plusM Char.isUpper) (litM "USTPACAD12".data)

/-- The `document_code` extraction (lines 50–58): search the tolerant
pattern, delete whitespace from the match (`re.sub(r"\s*", "", ...)`),
upper-case, then canonicalize by the two `str.replace` calls and, if they
changed nothing, the dash-inserting `re.sub`. -/
def document_code_of (text : String) : Option String :=
  let lower := pyLower (normText text)
  match reSearch false epsM docCodePat epsM lower with
  | none => none
  | some g =>
      let s := String.mk (g.data.filter (fun c => !pyIsSpace c))
      let u := pyUpper s
      let d := pyReplace (pyReplace u "FMUSTPACAD12" "FM-USTP-ACAD-12")
        "MUSTPACAD12" "M-USTP-ACAD-12"
      some (if d = u then subAllRe ustpAcadSubPat "FM-USTP-ACAD-12" d else d)

/-- Character class `[:\-]`. -/
def colonDash (c : Char) : Bool := c = ':' || c = '-'

/-- Labeled course-code pattern
`course\s*code\s*[:\-]\s*([A-Z]{2,4}\s*-?\s*\d{2,5}|\d{4,6})`
(case-insensitive: `[A-Z]` matches either case), on the normalized text. -/
def course_code_labeled (text : String) : Option String :=
  (reSearch false
    (seqM (litCIM "course".data)
      (seqM wsM
        (seqM (litCIM "code".data) (seqM wsM (seqM (charM colonDash) wsM)))))
    (altM
      (seqM (countM isAsciiAlpha 2 4) (seqM sepPat (countM Char.isDigit 2 5)))
      (countM Char.isDigit 4 6))
    epsM (normText text)).map pyStrip

/-- Fallback course-code pattern
`\b([A-Z]{2,4}\s*-?\s*\d{2,5}|\b\d{4,6}\b)` (case-sensitive, `m2.group(1)`
taken without stripping). -/
def course_code_fallback (text : String) : Option String :=
  reSearch true epsM
    (altM
      (seqM (countM Char.isUpper 2 4) (seqM sepPat (countM Char.isDigit 2 5)))
      (seqM (countM Char.isDigit 4 6) boundaryAfterWordM))
    epsM (normText text)

/-- The `course_code` extraction (lines 61–72), including the final
`replace(" ", "")` applied to a truthy result. -/
def course_code_of (text : String) : Option String :=
  let c0 :=
    match course_code_labeled text with
    | some c => if c = "" then course_code_fallback text else some c
    | none => course_code_fallback text
  match c0 with
  | some c => if c = "" then some c else some (pyReplace c " " "")
  | none => none

/-- First semester pattern `\b(\d(?:st|nd|rd|th)?\s*semester)\b` on the
lower-cased text. -/
def semester_first (text : String) : Option String :=
  (reSearch true epsM
    (seqM (charM Char.isDigit)
      (seqM
        (optM (altM (litCIM "st".data)
          (altM (litCIM "nd".data) (altM (litCIM "rd".data) (litCIM "th".data)))))
        (seqM wsM (seqM (litCIM "semester".data) boundaryAfterWordM))))
    epsM (pyLower (normText text))).map pyStrip

/-- Second semester pattern `\b(1st|2nd|3rd|4th)\b\s*semester`. -/
def semester_second (text : String) : Option String :=
  (reSearch true epsM
    (altM (litCIM "1st".data)
      (altM (litCIM "2nd".data) (altM (litCIM "3rd".data) (litCIM "4th".data))))
    (seqM boundaryAfterWordM (seqM wsM (litCIM "semester".data)))
    (pyLower (normText text))).map pyStrip

/-- The `semester` extraction (lines 75–77): the second pattern is tried only
when the first finds nothing. -/
def semester_of (text : String) : Option String :=
  match semester_first text with
  | some s => if s = "" then semester_second text else some s
  | none => semester_second text

/-- The `academic_year` extraction (lines 80–90). `_get_first` returns the
last group of the labeled pattern (AY, four digits, a slash-or-dash, four
digits, all with word boundaries), which never contains a space, so the
construction pass over all boundary-delimited four-digit numbers runs
whenever the text mentions `ay` and has two year-like numbers. -/
def academic_year_of (text : String) : Option String :=
  let norm := normText text
  let lower := pyLower norm
  let ay0 := (reSearch true
    (seqM (litCIM "ay".data)
      (seqM wsM
        (seqM (exactM Char.isDigit 4)
          (seqM wsM (seqM (charM (fun c => c = '-' || c = '/')) wsM)))))
    (exactM Char.isDigit 4) boundaryAfterWordM norm).map pyStrip
  match ay0 with
  | some a =>
      if pyIn " " a then
        match findAllRe (exactM Char.isDigit 4) epsM false a with
        | g1 :: g2 :: _ => some (g1 ++ "-" ++ g2)
        | _ => some a
      else
        match findAllRe (exactM Char.isDigit 4) boundaryAfterWordM true norm with
        | g1 :: g2 :: _ => if pyIn "ay" lower then some (g1 ++ "-" ++ g2)
                           else some a
        | _ => some a
  | none =>
      match findAllRe (exactM Char.isDigit 4) boundaryAfterWordM true norm with
      | g1 :: g2 :: _ => if pyIn "ay" lower then some (g1 ++ "-" ++ g2) else none
      | _ => none

/-- Lookahead `(?=\s{2,}| faculty| directions| part |$)` (the subject is the
lower-cased normalized text, so the literals match directly; `$` is end of
input since the normalized text has no newline). -/
def titleTerm (l : List Char) : Bool :=
  (match l with
   | a :: b :: _ => pyIsSpace a && pyIsSpace b
   | _ => false) ||
  " faculty".data.isPrefixOf l || " directions".data.isPrefixOf l ||
  " part ".data.isPrefixOf l || l.isEmpty

/-- The `descriptive_title` extraction (lines 93–95):
`descriptive\s*title\s*[:\-]\s*(.+?)` up to the lookahead, stripped, then
`str.title()` on a truthy result. -/
def descriptive_title_of (text : String) : Option String :=
  ((reSearch false
    (seqM (litCIM "descriptive".data)
      (seqM wsM
        (seqM (litCIM "title".data) (seqM wsM (seqM (charM colonDash) wsM)))))
    (lazyDotUntilM titleTerm) epsM (pyLower (normText text))).map pyStrip).map
    (fun t => if t = "" then t else pyTitle t)

/-- Lookahead `(?=\s{2,}| directions| part |$)` for the faculty blob. -/
def facultyTerm (l : List Char) : Bool :=
  (match l with
   | a :: b :: _ => pyIsSpace a && pyIsSpace b
   | _ => false) ||
  " directions".data.isPrefixOf l || " part ".data.isPrefixOf l || l.isEmpty

/-- The raw faculty blob `faculty\s*[:\-]\s*(.+?)` up to the lookahead. -/
def faculty_blob_of (text : String) : Option String :=
  (reSearch false
    (seqM (litCIM "faculty".data) (seqM wsM (seqM (charM colonDash) wsM)))
    (lazyDotUntilM facultyTerm) epsM (pyLower (normText text))).map pyStrip

/-- `re.split(r"[,;]\s*", blob)`: a separator is one comma/semicolon plus the
whitespace following it; the flag records that we are consuming the
whitespace tail of a separator. -/
def splitNameSepAux : Bool → List Char → List Char → List (List Char)
  | _, acc, [] => [acc.reverse]
  | skip, acc, c :: rest =>
      if skip && pyIsSpace c then splitNameSepAux true acc rest
      else if c = ',' || c = ';' then
        acc.reverse :: splitNameSepAux true [] rest
      else splitNameSepAux false (c :: acc) rest

/-- `FieldExtractor._split_names`: split on comma/semicolon, keep pieces that
strip to something nonempty, trim `" ,;\n\t"` from both ends, then drop
fragments shorter than two characters. -/
def split_names (blob : String) : List String :=
  let parts := (splitNameSepAux false [] blob.data).filterMap (fun p =>
    if pyStrip (String.mk p) = "" then none
    else some (String.mk (stripOn " ,;\n\t".data p)))
  parts.filter (fun p => 2 ≤ p.length)

/-- `re.split(r"\s+", n)`; the flag records that we are inside a whitespace
separator run. -/
def splitWsRunsAux : Bool → List Char → List Char → List (List Char)
  | _, acc, [] => [acc.reverse]
  | skip, acc, c :: rest =>
      if pyIsSpace c then
        if skip then splitWsRunsAux true acc rest
        else acc.reverse :: splitWsRunsAux true [] rest
      else splitWsRunsAux false (c :: acc) rest

/-- The `faculty` extraction (lines 98–101): split a truthy blob into names
and title-case each name word-by-word with `str.capitalize`. -/
def faculty_of (text : String) : List String :=
  match faculty_blob_of text with
  | some b =>
      if b = "" then []
      else (split_names b).map (fun n =>
        String.intercalate " "
          ((splitWsRunsAux false [] n.data).map (fun w => pyCapitalize (String.mk w))))
  | none => []

/-- Character class `[A-Za-z .,'-]` of the `reviewed_by` pattern. -/
def reviewedByClass (c : Char) : Bool :=
  isAsciiAlpha c || c = ' ' || c = '.' || c = ',' || c = '\'' || c = '-'

/-- The `reviewed_by` extraction (line 104):
`reviewed\s*by\s*[:\-]?\s*([A-Za-z .,'-]{3,})` on the normalized text. -/
def reviewed_by_of (text : String) : Option String :=
  (reSearch false
    (seqM (litCIM "reviewed".data)
      (seqM wsM
        (seqM (litCIM "by".data) (seqM wsM (seqM (optCharM colonDash) wsM)))))
    (atLeastM reviewedByClass 3) epsM (normText text)).map pyStrip

/-- The `review_date` extraction (line 105): a slash/dash numeric date or a
`Month DD, YYYY` form after `date\s*(?:of\s*review)?\s*[:\-]?\s*`. -/
def review_date_of (text : String) : Option String :=
  (reSearch false
    (seqM (litCIM "date".data)
      (seqM wsM
        (seqM (optM (seqM (litCIM "of".data) (seqM wsM (litCIM "review".data))))
          (seqM wsM (seqM (optCharM colonDash) wsM)))))
    (altM datePat
      (seqM (plusM isWordChar)
        (seqM (plusM pyIsSpace)
          (seqM (countM Char.isDigit 1 2)
            (seqM (litM ",".data) (seqM wsM (exactM Char.isDigit 4)))))))
    epsM (normText text)).map pyStrip

/-- Python truthiness of an optional string. -/
def optTruthy : Option String → Bool
  | none => false
  | some s => s ≠ ""

/-- The result dict of `FieldExtractor.extract_syllabus_review`
(`_debug_present_fields` keeps its role under a Lean-legal name). -/
structure FieldSet where
  document_code : Option String
  course_code : Option String
  semester : Option String
  academic_year : Option String
  descriptive_title : Option String
  faculty : List String
  reviewed_by : Option String
  review_date : Option String
  indicators_table : Bool
  yes_count : Nat
  no_count : Nat
  debug_present_fields : List String
deriving DecidableEq

/-- `FieldExtractor.extract_syllabus_review` (lines 42–136). -/
def extract_syllabus_review (text : String) : FieldSet :=
  let lower := pyLower (normText text)
  { document_code := document_code_of text
    course_code := course_code_of text
    semester :=
      match semester_of text with
      | some s => if s = "" then none else some (pyTitle s)
      | none => none
    academic_year := academic_year_of text
    descriptive_title := descriptive_title_of text
    faculty := faculty_of text
    reviewed_by := reviewed_by_of text
    review_date := review_date_of text
    indicators_table := pyIn "indicators" lower && pyIn "remarks" lower
    yes_count := (findAllRe (litM "yes".data) boundaryAfterWordM true lower).length
    no_count := (findAllRe (litM "no".data) boundaryAfterWordM true lower).length
    debug_present_fields :=
      ([("document_code", optTruthy (document_code_of text)),
        ("course_code", optTruthy (course_code_of text)),
        ("semester", optTruthy (semester_of text)),
        ("academic_year", optTruthy (academic_year_of text)),
        ("descriptive_title", optTruthy (descriptive_title_of text)),
        ("faculty", !(faculty_of text).isEmpty),
        ("reviewed_by", optTruthy (reviewed_by_of text)),
        ("review_date", optTruthy (review_date_of text))].filter
          (fun p => p.2)).map Prod.fst }

/-! ### Helper lemmas about the candidate-selection fold -/

theorem improves_irrefl (b : String × ℚ) : ¬ improves b b := by
  simp [improves]

theorem improves_trans {x y z : String × ℚ}
    (h1 : improves x y) (h2 : improves y z) : improves x z := by
  rcases h1 with h1 | ⟨h1e, h1l⟩ <;> rcases h2 with h2 | ⟨h2e, h2l⟩
  · exact Or.inl (lt_trans h2 h1)
  · exact Or.inl (h2e ▸ h1)
  · exact Or.inl (h1e ▸ h2)
  · exact Or.inr ⟨h1e.trans h2e, lt_trans h2l h1l⟩

theorem not_improves_stepBest_self (b c : String × ℚ) :
    ¬ improves c (stepBest b c) := by
  unfold stepBest
  split_ifs with h
  · exact improves_irrefl c
  · exact h

theorem not_improves_stepBest (x b c : String × ℚ) (hx : ¬ improves x b) :
    ¬ improves x (stepBest b c) := by
  unfold stepBest
  split_ifs with h
  · intro hxc
    exact hx (improves_trans hxc h)
  · exact hx

theorem bestFold_preserve (cs : List (String × ℚ)) (x : String × ℚ) :
    ∀ b, ¬ improves x b → ¬ improves x (bestFold b cs) := by
  induction cs with
  | nil => intro b hb; exact hb
  | cons c rest ih =>
      intro b hb
      exact ih (stepBest b c) (not_improves_stepBest x b c hb)

theorem bestFold_not_improves (cs : List (String × ℚ)) :
    ∀ init, ∀ x ∈ cs, ¬ improves x (bestFold init cs) := by
  induction cs with
  | nil => intro init x hx; cases hx
  | cons c rest ih =>
      intro init x hx
      rcases List.mem_cons.mp hx with rfl | hx'
      · exact bestFold_preserve rest x (stepBest init x)
          (not_improves_stepBest_self init x)
      · exact ih (stepBest init c) x hx'

theorem bestFold_eq_or_mem (cs : List (String × ℚ)) :
    ∀ init, bestFold init cs = init ∨ bestFold init cs ∈ cs := by
  induction cs with
  | nil => intro init; exact Or.inl rfl
  | cons c rest ih =>
      intro init
      have hstep : bestFold init (c :: rest) = bestFold (stepBest init c) rest := rfl
      rw [hstep]
      rcases ih (stepBest init c) with h | h
      · rw [h]
        unfold stepBest
        split_ifs with hc
        · exact Or.inr (List.mem_cons_self c rest)
        · exact Or.inl rfl
      · exact Or.inr (List.mem_cons_of_mem c h)

theorem searchBest_eq_bestFold {Img : Type} (run : Img → String → String × ℚ)
    (cfgs : List String) (cands : List Img) :
    ∀ a, cands.foldl
        (fun acc v => cfgs.foldl (fun b cfg => stepBest b (run v cfg)) acc) a =
      bestFold a (candList run cfgs cands) := by
  induction cands with
  | nil => intro a; rfl
  | cons v vs ih =>
      intro a
      have hl : (v :: vs).foldl
          (fun acc v => cfgs.foldl (fun b cfg => stepBest b (run v cfg)) acc) a =
          vs.foldl
            (fun acc v => cfgs.foldl (fun b cfg => stepBest b (run v cfg)) acc)
            (cfgs.foldl (fun b cfg => stepBest b (run v cfg)) a) := rfl
      rw [hl, ih]
      have hr : candList run cfgs (v :: vs) =
          cfgs.map (run v) ++ candList run cfgs vs := rfl
      rw [hr]
      simp only [bestFold, List.foldl_append, List.foldl_map]

theorem mem_candList {Img : Type} (run : Img → String → String × ℚ)
    (cfgs : List String) (cands : List Img) :
    ∀ v ∈ cands, ∀ cfg ∈ cfgs, run v cfg ∈ candList run cfgs cands := by
  induction cands with
  | nil => intro v hv; cases hv
  | cons w ws ih =>
      intro v hv cfg hcfg
      rcases List.mem_cons.mp hv with rfl | hv'
      · exact List.mem_append_left _ (List.mem_map_of_mem (run v) hcfg)
      · exact List.mem_append_right _ (ih v hv' cfg hcfg)

theorem candList_mem_ex {Img : Type} (run : Img → String → String × ℚ)
    (cfgs : List String) (cands : List Img) :
    ∀ x ∈ candList run cfgs cands,
      ∃ v ∈ cands, ∃ cfg ∈ cfgs, x = run v cfg := by
  induction cands with
  | nil => intro x hx; cases hx
  | cons w ws ih =>
      intro x hx
      rcases List.mem_append.mp hx with h | h
      · obtain ⟨cfg, hcfg, rfl⟩ := List.mem_map.mp h
        exact ⟨w, List.mem_cons_self w ws, cfg, hcfg, rfl⟩
      · obtain ⟨v, hv, cfg, hcfg, rfl⟩ := ih x h
        exact ⟨v, List.mem_cons_of_mem w hv, cfg, hcfg, rfl⟩

/-! ### Helper lemmas about the score arg-max -/

theorem maxFold_eq_or_mem (t : List (String × Nat)) :
    ∀ b, t.foldl (fun b p => if b.2 < p.2 then p else b) b = b ∨
      t.foldl (fun b p => if b.2 < p.2 then p else b) b ∈ t := by
  induction t with
  | nil => intro b; exact Or.inl rfl
  | cons p rest ih =>
      intro b
      have hstep : (p :: rest).foldl (fun b p => if b.2 < p.2 then p else b) b =
          rest.foldl (fun b p => if b.2 < p.2 then p else b)
            (if b.2 < p.2 then p else b) := rfl
      rw [hstep]
      rcases ih (if b.2 < p.2 then p else b) with h | h
      · rw [h]
        split_ifs with hc
        · exact Or.inr (List.mem_cons_self p rest)
        · exact Or.inl rfl
      · exact Or.inr (List.mem_cons_of_mem p h)

theorem maxFold_ge_init (t : List (String × Nat)) :
    ∀ b, b.2 ≤ (t.foldl (fun b p => if b.2 < p.2 then p else b) b).2 := by
  induction t with
  | nil => intro b; exact le_refl _
  | cons p rest ih =>
      intro b
      refine le_trans ?_ (ih (if b.2 < p.2 then p else b))
      split_ifs with hc
      · exact le_of_lt hc
      · exact le_refl _

theorem maxFold_ge_mem (t : List (String × Nat)) :
    ∀ b, ∀ p ∈ t, p.2 ≤ (t.foldl (fun b p => if b.2 < p.2 then p else b) b).2 := by
  induction t with
  | nil => intro b p hp; cases hp
  | cons q rest ih =>
      intro b p hp
      rcases List.mem_cons.mp hp with rfl | hp'
      · refine le_trans ?_ (maxFold_ge_init rest (if b.2 < p.2 then p else b))
        split_ifs with hc
        · exact le_refl _
        · exact le_of_not_lt hc
      · exact ih (if b.2 < q.2 then q else b) p hp'

theorem pyMaxPair_mem (l : List (String × Nat)) (h : l ≠ []) :
    pyMaxPair l ∈ l := by
  match l with
  | [] => exact absurd rfl h
  | q :: t =>
      rcases maxFold_eq_or_mem t q with h' | h'
      · rw [pyMaxPair, h']; exact List.mem_cons_self q t
      · exact List.mem_cons_of_mem q h'

theorem pyMaxPair_ge (l : List (String × Nat)) :
    ∀ p ∈ l, p.2 ≤ (pyMaxPair l).2 := by
  match l with
  | [] => intro p hp; cases hp
  | q :: t =>
      intro p hp
      rcases List.mem_cons.mp hp with rfl | hp'
      · exact maxFold_ge_init t p
      · exact maxFold_ge_mem t q p hp'

theorem foldlMax_le_bound (l : List (String × Nat)) :
    ∀ a bound, a ≤ bound → (∀ p ∈ l, p.2 ≤ bound) →
      l.foldl (fun a p => max a p.2) a ≤ bound := by
  induction l with
  | nil => intro a bound ha _; exact ha
  | cons p rest ih =>
      intro a bound ha hall
      refine ih (max a p.2) bound (max_le ha (hall p (List.mem_cons_self p rest)))
        (fun q hq => hall q (List.mem_cons_of_mem p hq))

theorem le_foldlMax_init (l : List (String × Nat)) :
    ∀ a, a ≤ l.foldl (fun a p => max a p.2) a := by
  induction l with
  | nil => intro a; exact le_refl _
  | cons p rest ih =>
      intro a
      exact le_trans (le_max_left a p.2) (ih (max a p.2))

theorem foldlMax_ge_mem (l : List (String × Nat)) :
    ∀ a, ∀ p ∈ l, p.2 ≤ l.foldl (fun a p => max a p.2) a := by
  induction l with
  | nil => intro a p hp; cases hp
  | cons q rest ih =>
      intro a p hp
      rcases List.mem_cons.mp hp with rfl | hp'
      · exact le_trans (le_max_right a p.2) (le_foldlMax_init rest (max a p.2))
      · exact ih (max a q.2) p hp'

theorem pyMaxVals_zero (l : List (String × Nat)) (h : ∀ p ∈ l, p.2 = 0) :
    pyMaxVals l = 0 :=
  Nat.le_zero.mp (foldlMax_le_bound l 0 0 (le_refl 0)
    (fun p hp => Nat.le_of_eq (h p hp)))

theorem pyMaxPair_val (l : List (String × Nat)) (h : l ≠ []) :
    (pyMaxPair l).2 = pyMaxVals l := by
  refine le_antisymm ?_ ?_
  · exact foldlMax_ge_mem l 0 (pyMaxPair l) (pyMaxPair_mem l h)
  · exact foldlMax_le_bound l 0 ((pyMaxPair l).2) (Nat.zero_le _) (pyMaxPair_ge l)

theorem rbScores_map_fst (text : String) :
    (rbScores text).map Prod.fst = CATEGORIES := rfl

theorem rbScores_ne_nil (text : String) : rbScores text ≠ [] := by
  intro h
  have := congrArg List.length h
  simp [rbScores] at this

/-! ### Helper lemmas for confidence bounds -/

theorem roundHalfEven_bounds {x : ℚ} (h0 : 0 ≤ x) (h1 : x ≤ 100) :
    0 ≤ roundHalfEven x ∧ roundHalfEven x ≤ 100 := by
  have hf0 : 0 ≤ ⌊x⌋ := Int.floor_nonneg.mpr h0
  have hfle : ⌊x⌋ ≤ 100 := by
    have h := Int.floor_le_floor (α := ℚ) h1
    simpa using h
  have hsucc : 1 / 2 ≤ x - ⌊x⌋ → ⌊x⌋ + 1 ≤ 100 := by
    intro hh
    have hly : (⌊x⌋ : ℚ) ≤ 100 - 1 / 2 := by linarith
    have : ⌊x⌋ < 100 := by
      by_contra hc
      push_neg at hc
      have : (100 : ℚ) ≤ (⌊x⌋ : ℚ) := by exact_mod_cast hc
      linarith
    omega
  unfold roundHalfEven
  split_ifs with hlt hgt heven
  · exact ⟨hf0, hfle⟩
  · exact ⟨by omega, hsucc (le_of_lt hgt)⟩
  · exact ⟨hf0, hfle⟩
  · exact ⟨by omega, hsucc (le_of_not_lt hlt)⟩

theorem pyRound2_bounds {q : ℚ} (h0 : 0 ≤ q) (h1 : q ≤ 1) :
    0 ≤ pyRound2 q ∧ pyRound2 q ≤ 1 := by
  have h := roundHalfEven_bounds (x := q * 100) (by positivity) (by linarith)
  unfold pyRound2
  constructor
  · exact div_nonneg (by exact_mod_cast h.1) (by norm_num)
  · rw [div_le_one (by norm_num)]
    exact_mod_cast h.2

theorem rb_conf_bounds (t : String) :
    0 ≤ (rule_based_classification t).2 ∧ (rule_based_classification t).2 ≤ 1 := by
  unfold rule_based_classification
  split_ifs with h
  · norm_num
  · refine ⟨le_min (by positivity) zero_le_one, min_le_right _ _⟩

theorem rb_type_mem (t : String) :
    (rule_based_classification t).1 ∈ CATEGORIES := by
  unfold rule_based_classification
  split_ifs with h
  · show "Other" ∈ CATEGORIES
    decide
  · show (pyMaxPair (rbScores t)).1 ∈ CATEGORIES
    rw [← rbScores_map_fst t]
    exact List.mem_map_of_mem Prod.fst (pyMaxPair_mem _ (rbScores_ne_nil t))

/-! ### Claim theorems -/

/-- C1: for every input text that is absent (None/empty) or shorter than 10
characters after trimming whitespace (including whitespace-only strings),
`classify` returns exactly the result with document_type "Other",
confidence 0.0, empty keywords, and method "insufficient_text", and this
result is independent of the classifier state (no model prediction, rule
scoring, or keyword extraction influences it). -/
theorem C1_insufficient_text_floor (c : DocumentClassifier) (t : Option String)
    (h : t = none ∨ ∃ s, t = some s ∧ (pyStrip s).length < 10) :
    classify c t = ⟨"Other", 0, [], "insufficient_text"⟩ := by
  have hcond : isInsufficient t = true := by
    rcases h with rfl | ⟨s, rfl, hs⟩
    · rfl
    · simp [isInsufficient, hs]
  simp [classify, hcond]

theorem C1_witness :
    classify ⟨none, 7 / 10⟩ (some "   hi   ") =
      ⟨"Other", 0, [], "insufficient_text"⟩ :=
  C1_insufficient_text_floor ⟨none, 7 / 10⟩ (some "   hi   ")
    (Or.inr ⟨"   hi   ", rfl, by decide⟩)

/-- C2: for every input, `classify` returns a confidence in [0, 1] and a
document_type among the fixed 11 category labels, on every path
(insufficient_text, ml_model, rule_based, rule_based_fallback,
rule_based_error_fallback). The hypothesis states the contract of the
external scikit-learn model: `predict` returns a label among the trained
categories and `max(predict_proba(...))` lies in [0, 1]. -/
theorem C2_result_invariants (c : DocumentClassifier) (t : Option String)
    (hm : ∀ mdl, c.model = some mdl → ∀ s lbl p,
      mdl.predict s = Except.ok (lbl, p) →
      lbl ∈ CATEGORIES ∧ 0 ≤ p ∧ p ≤ 1) :
    0 ≤ (classify c t).confidence ∧ (classify c t).confidence ≤ 1 ∧
      (classify c t).document_type ∈ CATEGORIES := by
  by_cases hins : isInsufficient t = true
  · simp only [classify, hins, if_true]
    refine ⟨le_refl 0, zero_le_one, by decide⟩
  · rw [Bool.not_eq_true] at hins
    have hd : 0 ≤ (classifyDispatch c (t.getD "")).2.1 ∧
        (classifyDispatch c (t.getD "")).2.1 ≤ 1 ∧
        (classifyDispatch c (t.getD "")).1 ∈ CATEGORIES := by
      have hrb := rb_conf_bounds (t.getD "")
      have hrbt := rb_type_mem (t.getD "")
      cases hmod : c.model with
      | none =>
          simp only [classifyDispatch, hmod]
          exact ⟨hrb.1, hrb.2, hrbt⟩
      | some mdl =>
          cases hp : mdl.predict (t.getD "") with
          | error e =>
              simp only [classifyDispatch, hmod, hp]
              exact ⟨hrb.1, hrb.2, hrbt⟩
          | ok v =>
              obtain ⟨lbl, p⟩ := v
              obtain ⟨hlbl, hp0, hp1⟩ := hm mdl hmod (t.getD "") lbl p hp
              by_cases hth : p < c.confidence_threshold
              · simp only [classifyDispatch, hmod, hp, hth, if_true]
                exact ⟨hrb.1, hrb.2, hrbt⟩
              · simp only [classifyDispatch, hmod, hp, hth, if_false]
                exact ⟨hp0, hp1, hlbl⟩
    have hr := pyRound2_bounds hd.1 hd.2.1
    simp only [classify, hins, Bool.false_eq_true, if_false]
    exact ⟨hr.1, hr.2, hd.2.2⟩

theorem C2_witness :
    0 ≤ (classify ⟨none, 7 / 10⟩ (some "receipt payment for tuition")).confidence ∧
    (classify ⟨none, 7 / 10⟩ (some "receipt payment for tuition")).confidence ≤ 1 ∧
    (classify ⟨none, 7 / 10⟩ (some "receipt payment for tuition")).document_type ∈
      CATEGORIES :=
  C2_result_invariants ⟨none, 7 / 10⟩ (some "receipt payment for tuition")
    (fun _ h => nomatch h)

/-- C3 counterexample: on a PDF whose rasterization fails and on an image
that cannot be read, text extraction returns the plain empty string — the
same value as a page with no extractable text — instead of surfacing a
fatal error to the caller. -/
theorem C3_counterexample :
    extract_text_from_pdf (Except.error () : Except Unit (List Unit))
      (fun _ => "page") 1 1500 = "" ∧
    extract_text_from_image (fun _ => (none : Option Unit)) (fun i => (i, []))
      (fun _ _ => ("", 0)) (fun _ => "") (fun _ => "") 1500 "zero-byte.png"
      = "" :=
  ⟨rfl, rfl⟩

/-- C3 (amended): for every malformed or unsupported input document — a PDF
whose page rasterization fails, or an image file that cannot be read — text
extraction catches the error and degrades to returning the empty string
before any OCR attempt; no fatal error reaches the caller and the result is
indistinguishable from a page with no extractable text. -/
theorem C3_extraction_degrades_to_empty {Img : Type} (e : Unit)
    (pageText : Img → String) (maxPages maxChars : Nat)
    (imread : String → Option Img) (prep : Img → Img × List Img)
    (run : Img → String → String × ℚ) (headerOCR bodyOCR : Img → String)
    (path : String) (h : imread path = none) :
    extract_text_from_pdf (Except.error e) pageText maxPages maxChars = "" ∧
    extract_text_from_image imread prep run headerOCR bodyOCR maxChars path
      = "" := by
  constructor
  · rfl
  · simp [extract_text_from_image, h]

theorem C3_witness :
    ((fun (_ : String) => (none : Option Unit)) "broken.png" = none) ∧
    (extract_text_from_pdf (Except.error () : Except Unit (List Unit))
        (fun _ => "x") 3 1500 = "" ∧
      extract_text_from_image (fun _ => (none : Option Unit)) (fun i => (i, []))
        (fun _ _ => ("y", 50)) (fun _ => "h") (fun _ => "b") 1500 "broken.png"
        = "") :=
  ⟨rfl, C3_extraction_degrades_to_empty () (fun _ => "x") 3 1500
    (fun _ => none) (fun i => (i, [])) (fun _ _ => ("y", 50)) (fun _ => "h")
    (fun _ => "b") "broken.png" rfl⟩

/-- C4 counterexample: the input "F M-USTP-ACAD-12" matches the tolerant
document-code pattern, but the extractor normalizes it to "M-USTP-ACAD-12"
(the detached leading "F" cannot be matched, since the pattern allows no
gap between the optional `f` and the `m`), not to the claimed single
canonical form "FM-USTP-ACAD-12". -/
theorem C4_counterexample :
    (extract_syllabus_review "F M-USTP-ACAD-12").document_code =
        some "M-USTP-ACAD-12" ∧
    (extract_syllabus_review "F M-USTP-ACAD-12").document_code ≠
        some "FM-USTP-ACAD-12" :=
  ⟨by decide, by decide⟩

/-- C4 (amended): the extractor does not map every tolerant-pattern match to
a single canonical form. Of the claim's example spellings, "fm ustp acad 12"
and "FMUSTPACAD12" do normalize to "FM-USTP-ACAD-12" in the document_code
field, but "F M-USTP-ACAD-12" normalizes to "M-USTP-ACAD-12" (the detached
leading letter is dropped by the match); and partially dashed spellings are
never canonicalized, because the dash-inserting rewrite requires the fully
dash-free skeleton: "fm-ustpacad12" yields "FM-USTPACAD12" and
"fm ustp-acad-12" yields "FMUSTP-ACAD-12". -/
theorem C4_document_code_normalization :
    (extract_syllabus_review "fm ustp acad 12").document_code =
        some "FM-USTP-ACAD-12" ∧
    (extract_syllabus_review "FMUSTPACAD12").document_code =
        some "FM-USTP-ACAD-12" ∧
    (extract_syllabus_review "F M-USTP-ACAD-12").document_code =
        some "M-USTP-ACAD-12" ∧
    (extract_syllabus_review "fm-ustpacad12").document_code =
        some "FM-USTPACAD12" ∧
    (extract_syllabus_review "fm ustp-acad-12").document_code =
        some "FMUSTP-ACAD-12" :=
  ⟨by decide, by decide, by decide, by decide, by decide⟩

/-- C5: OCR candidate search determinism and tie-break. Two runs over the
same variant list and configuration list with extensionally equal
deterministic backends select the same best candidate; one step of the
running best replaces the candidate exactly when the new score is strictly
higher, or equal with strictly longer text; the selected result is never
beaten by any candidate of the ordered (variant, configuration)
cross-product; and it is either the initial sentinel or one of the
candidates (so the selection rule is stable and total). -/
theorem C5_candidate_search_determinism {Img : Type}
    (run run2 : Img → String → String × ℚ) (cands : List Img)
    (cfgs : List String) (h : ∀ v cfg, run v cfg = run2 v cfg) :
    searchBest run cands cfgs = searchBest run2 cands cfgs ∧
    (∀ b c, stepBest b c =
      if b.2 < c.2 ∨ (c.2 = b.2 ∧ b.1.length < c.1.length) then c else b) ∧
    (∀ v ∈ cands, ∀ cfg ∈ cfgs,
      ¬ improves (run v cfg) (searchBest run cands cfgs)) ∧
    (searchBest run cands cfgs = ("", -1) ∨
      ∃ v ∈ cands, ∃ cfg ∈ cfgs, searchBest run cands cfgs = run v cfg) := by
  have hrun : run = run2 := funext (fun v => funext (fun cfg => h v cfg))
  have heq : searchBest run cands cfgs =
      bestFold ("", -1) (candList run cfgs cands) :=
    searchBest_eq_bestFold run cfgs cands ("", -1)
  refine ⟨by rw [hrun], fun b c => rfl, ?_, ?_⟩
  · intro v hv cfg hcfg
    rw [heq]
    exact bestFold_not_improves (candList run cfgs cands) ("", -1) (run v cfg)
      (mem_candList run cfgs cands v hv cfg hcfg)
  · rw [heq]
    rcases bestFold_eq_or_mem (candList run cfgs cands) ("", -1) with h' | h'
    · exact Or.inl h'
    · obtain ⟨v, hv, cfg, hcfg, hx⟩ :=
        candList_mem_ex run cfgs cands _ h'
      exact Or.inr ⟨v, hv, cfg, hcfg, hx ▸ rfl⟩

theorem C5_witness :
    searchBest (fun (_ : Nat) (_ : String) => ("t", (1 : ℚ))) [0] ocr_configs =
      searchBest (fun (_ : Nat) (_ : String) => ("t", (1 : ℚ))) [0] ocr_configs :=
  (C5_candidate_search_determinism
    (fun (_ : Nat) (_ : String) => ("t", (1 : ℚ)))
    (fun (_ : Nat) (_ : String) => ("t", (1 : ℚ))) [0] ocr_configs
    (fun _ _ => rfl)).1

/-- C6: for every input text reaching the rule engine, if every category's
score is 0 then `rule_based_classification` returns ("Other", 0.5) —
confidence 0.5, never 0; otherwise it returns the arg-max-scoring category
(the first category, in `CATEGORIES` order, attaining the maximal score,
which belongs to the score table and to `CATEGORIES` and is not exceeded by
any category's score) with confidence `min(maxScore / 10, 1.0)`. -/
theorem C6_rule_engine_result (text : String) :
    ((∀ p ∈ rbScores text, p.2 = 0) →
      rule_based_classification text = ("Other", (1 : ℚ) / 2)) ∧
    (0 < pyMaxVals (rbScores text) →
      rule_based_classification text =
        ((pyMaxPair (rbScores text)).1,
          min ((pyMaxVals (rbScores text) : ℚ) / 10) 1) ∧
      pyMaxPair (rbScores text) ∈ rbScores text ∧
      (pyMaxPair (rbScores text)).1 ∈ CATEGORIES ∧
      (pyMaxPair (rbScores text)).2 = pyMaxVals (rbScores text) ∧
      ∀ p ∈ rbScores text, p.2 ≤ (pyMaxPair (rbScores text)).2) := by
  constructor
  · intro h
    unfold rule_based_classification
    rw [if_pos (pyMaxVals_zero (rbScores text) h)]
  · intro hpos
    refine ⟨?_, pyMaxPair_mem _ (rbScores_ne_nil text), ?_,
      pyMaxPair_val _ (rbScores_ne_nil text), pyMaxPair_ge _⟩
    · unfold rule_based_classification
      rw [if_neg (Nat.pos_iff_ne_zero.mp hpos)]
    · rw [← rbScores_map_fst text]
      exact List.mem_map_of_mem Prod.fst (pyMaxPair_mem _ (rbScores_ne_nil text))

theorem C6_witness :
    rule_based_classification "" = ("Other", (1 : ℚ) / 2) ∧
    rule_based_classification "grade" =
      ((pyMaxPair (rbScores "grade")).1,
        min ((pyMaxVals (rbScores "grade") : ℚ) / 10) 1) :=
  ⟨(C6_rule_engine_result "").1 (by decide),
   ((C6_rule_engine_result "grade").2 (by decide)).1⟩

/-- C7: strategy dispatch with provenance tags, for any text long enough to
pass the insufficient-text floor. With a loaded model whose prediction
succeeds and whose probability is at least the threshold, `classify`
returns the model's label tagged "ml_model"; below the threshold it returns
the rule-engine result tagged "rule_based_fallback"; when prediction raises,
the rule-engine result tagged "rule_based_error_fallback"; and with no
model loaded, the rule-engine result tagged "rule_based". -/
theorem C7_strategy_dispatch (t : String)
    (ht : ¬ t = "" ∧ 10 ≤ (pyStrip t).length) (th : ℚ) :
    (∀ mdl lbl p, mdl.predict t = Except.ok (lbl, p) → th ≤ p →
      classify ⟨some mdl, th⟩ (some t) =
        ⟨lbl, pyRound2 p, extract_keywords t 5, "ml_model"⟩) ∧
    (∀ mdl lbl p, mdl.predict t = Except.ok (lbl, p) → p < th →
      classify ⟨some mdl, th⟩ (some t) =
        ⟨(rule_based_classification t).1,
         pyRound2 (rule_based_classification t).2,
         extract_keywords t 5, "rule_based_fallback"⟩) ∧
    (∀ mdl e, mdl.predict t = Except.error e →
      classify ⟨some mdl, th⟩ (some t) =
        ⟨(rule_based_classification t).1,
         pyRound2 (rule_based_classification t).2,
         extract_keywords t 5, "rule_based_error_fallback"⟩) ∧
    classify ⟨none, th⟩ (some t) =
      ⟨(rule_based_classification t).1,
       pyRound2 (rule_based_classification t).2,
       extract_keywords t 5, "rule_based"⟩ := by
  have h1 : (t == "") = false := beq_eq_false_iff_ne.mpr ht.1
  have h2 : decide ((pyStrip t).length < 10) = false :=
    decide_eq_false (not_lt.mpr ht.2)
  have hcond : isInsufficient (some t) = false := by
    simp [isInsufficient, h1, h2]
  refine ⟨?_, ?_, ?_, ?_⟩
  · intro mdl lbl p hp hth
    have hnlt : ¬ p < th := not_lt.mpr hth
    simp [classify, hcond, classifyDispatch, hp, hnlt]
  · intro mdl lbl p hp hth
    simp [classify, hcond, classifyDispatch, hp, hth]
  · intro mdl e hp
    simp [classify, hcond, classifyDispatch, hp]
  · simp [classify, hcond, classifyDispatch]

theorem C7_witness :
    classify ⟨some ⟨fun _ => Except.ok ("Receipt", 1)⟩, 0⟩
        (some "hello world document") =
      ⟨"Receipt", pyRound2 1, extract_keywords "hello world document" 5,
        "ml_model"⟩ :=
  (C7_strategy_dispatch "hello world document" ⟨by decide, by decide⟩ 0).1
    ⟨fun _ => Except.ok ("Receipt", 1)⟩ "Receipt" 1 rfl zero_le_one

/-- C8: whenever at least one syllabus-review composite signal fires, the
Grade Sheet score is reduced by 3 points and floored at 0 before the
arg-max is taken; consequently the syllabus-review text
"fm-ustp-acad-12 Grade" — containing the document-code pattern and an
incidental "Grade" mention — classifies as "Syllabus Review Form" (with
confidence 0.6), not "Grade Sheet". -/
theorem C8_grade_sheet_downweight :
    (∀ text, 0 < syllabus_signals text →
      (grade_sheet_score text : ℤ) = max 0 ((grade_sheet_raw text : ℤ) - 3)) ∧
    rule_based_classification "fm-ustp-acad-12 Grade" =
      ("Syllabus Review Form", (3 : ℚ) / 5) := by
  constructor
  · intro text h
    unfold grade_sheet_score
    rw [if_pos h]
    by_cases hr : 0 < grade_sheet_raw text
    · rw [if_pos hr]
      omega
    · rw [if_neg hr]
      omega
  · have h6 : pyMaxVals (rbScores "fm-ustp-acad-12 Grade") = 6 := by decide
    have hp : pyMaxPair (rbScores "fm-ustp-acad-12 Grade") =
        ("Syllabus Review Form", 6) := by decide
    unfold rule_based_classification
    rw [h6, hp]
    norm_num [min_def]

theorem C8_witness :
    0 < syllabus_signals "fm-ustp-acad-12 Grade" ∧
    (grade_sheet_score "fm-ustp-acad-12 Grade" : ℤ) =
      max 0 ((grade_sheet_raw "fm-ustp-acad-12 Grade" : ℤ) - 3) :=
  ⟨by decide,
   C8_grade_sheet_downweight.1 "fm-ustp-acad-12 Grade" (by decide)⟩

/-- C9: for every input text in which no field pattern matches (each field
extractor finds nothing), `extract_syllabus_review` returns — without any
possibility of raising, being a total function — a FieldSet whose named
fields are all null or empty: the seven scalar fields are `none`, the
faculty list is empty, and the debug list of present fields is empty. -/
theorem C9_empty_fieldset (text : String)
    (h1 : document_code_of text = none) (h2 : course_code_of text = none)
    (h3 : semester_of text = none) (h4 : academic_year_of text = none)
    (h5 : descriptive_title_of text = none) (h6 : faculty_blob_of text = none)
    (h7 : reviewed_by_of text = none) (h8 : review_date_of text = none) :
    (extract_syllabus_review text).document_code = none ∧
    (extract_syllabus_review text).course_code = none ∧
    (extract_syllabus_review text).semester = none ∧
    (extract_syllabus_review text).academic_year = none ∧
    (extract_syllabus_review text).descriptive_title = none ∧
    (extract_syllabus_review text).faculty = [] ∧
    (extract_syllabus_review text).reviewed_by = none ∧
    (extract_syllabus_review text).review_date = none ∧
    (extract_syllabus_review text).debug_present_fields = [] := by
  simp [extract_syllabus_review, faculty_of, optTruthy,
    h1, h2, h3, h4, h5, h6, h7, h8]

theorem C9_witness :
    (extract_syllabus_review "").document_code = none ∧
    (extract_syllabus_review "").course_code = none ∧
    (extract_syllabus_review "").semester = none ∧
    (extract_syllabus_review "").academic_year = none ∧
    (extract_syllabus_review "").descriptive_title = none ∧
    (extract_syllabus_review "").faculty = [] ∧
    (extract_syllabus_review "").reviewed_by = none ∧
    (extract_syllabus_review "").review_date = none ∧
    (extract_syllabus_review "").debug_present_fields = [] :=
  C9_empty_fieldset "" (by decide) (by decide) (by decide) (by decide)
    (by decide) (by decide) (by decide) (by decide)

/-- C10: for every input text, the "reviewed by" (+1) and "plan of action"
(+1) contributions of the syllabus composite never fire: `extract_features`
never defines the keys "has_reviewed_by" and "has_plan_of_action" that
`rule_based_classification` looks up with `features.get`, so the syllabus
composite score always equals the sum of the nine defined signals only. -/
theorem C10_undefined_signals_never_fire (text : String) :
    (extract_features text).lookup "has_reviewed_by" = none ∧
    (extract_features text).lookup "has_plan_of_action" = none ∧
    syllabus_signals text =
      (if featGet text "has_syllabus_title" then 4 else 0) +
      (if featGet text "has_syllabus_title_fuzzy" then 2 else 0) +
      (if featGet text "has_syllabus_document_code" then 3 else 0) +
      (if featGet text "has_ustp_acad_12" then 3 else 0) +
      (if featGet text "has_syllabus_indicators_table" then 2 else 0) +
      (if featGet text "has_directions_yes" then 1 else 0) +
      (if featGet text "has_university_header" then 1 else 0) +
      (if featGet text "has_course_code" then 1 else 0) +
      (if featGet text "has_faculty" then 1 else 0) := by
  have h1 : featGet text "has_reviewed_by" = false := rfl
  have h2 : featGet text "has_plan_of_action" = false := rfl
  refine ⟨rfl, rfl, ?_⟩
  unfold syllabus_signals
  rw [h1, h2]
  simp

end ARC
